import Mathlib

/-!
Verification of the team-assignment scoring engine, LLM arbitrator,
assignment committer and polling scheduler of the jira-autoassign
repository.  Python floats are modelled as exact rationals (`ℚ`),
Python dicts (which preserve insertion order) as association lists,
and the HTTP world as explicit outcome parameters.
-/

namespace JiraAutoAssign

/-! ## Fine-Tuning Scorer (app/enhanced_chroma_client.py)

A similarity match as consumed by `assign_team_with_fine_tuning`:
a (ticket id, distance, metadata) triple where the metadata may lack
the `technical_owner` key. -/

structure TicketMatch where
  ticket_id : String
  distance : ℚ
  technical_owner : Option String
deriving DecidableEq

/-- Python `str.lower()` (kernel-computable form of `String.toLower`). -/
def pyLower (s : String) : String :=
  String.mk (s.toList.map Char.toLower)

/-- Python `needle in hay` substring test. -/
def isSubstr (needle hay : String) : Bool :=
  let n := needle.toList
  let h := hay.toList
  (List.range (h.length + 1)).any (fun i => n.isPrefixOf (h.drop i))

/-- `_load_keyword_team_mapping` : keyword -> [(team, weight)]. -/
def keyword_team_mapping : List (String × List (String × ℚ)) :=
  [ ("smb", [("Team Nandi", 15/10)]),
    ("cifs", [("Team Nandi", 15/10)]),
    ("kerberos", [("Team Nandi", 14/10)]),
    ("nfsv4", [("Team Nandi", 14/10)]),
    ("domain", [("Team Nandi", 13/10)]),
    ("volume creation", [("Team Nandi", 12/10)]),
    ("scale", [("Team ANF PaS", 14/10)]),
    ("infrastructure", [("Team ANF PaS", 15/10)]),
    ("workload", [("Team ANF PaS", 13/10)]),
    ("backup", [("Team Himalaya", 15/10)]),
    ("delete", [("Team Himalaya", 14/10)]) ]

/-- `_load_component_weights` : component -> team. -/
def component_weights : List (String × String) :=
  [ ("SMB", "Team Nandi"),
    ("CIFS", "Team Nandi"),
    ("NFS", "Team Nandi"),
    ("Kerberos", "Team Nandi"),
    ("Scale", "Team ANF PaS"),
    ("Infrastructure", "Team ANF PaS"),
    ("Backup", "Team Himalaya"),
    ("Volume Management", "Team Nandi") ]

/-- `_calculate_keyword_boost`: for every keyword contained in the
lower-cased content, add `weight * 0.1` for each mapping to this exact
team; cap the total at `0.3`. -/
def calculate_keyword_boost (ticket_content team : String) : ℚ :=
  let content_lower := pyLower ticket_content
  let boost := keyword_team_mapping.foldl
    (fun b kv =>
      if isSubstr kv.1 content_lower then
        kv.2.foldl (fun b2 tw => if tw.1 = team then b2 + tw.2 * (1/10) else b2) b
      else b) 0
  min boost (3/10)

/-- `_calculate_component_boost`: `0.15` per component mapped to this
team; cap at `0.2`. -/
def calculate_component_boost (components : List String) (team : String) : ℚ :=
  let boost := components.foldl
    (fun b c =>
      match List.lookup c component_weights with
      | some preferred_team => if preferred_team = team then b + 15/100 else b
      | none => b) 0
  min boost (2/10)

/-- Per-team accumulator of `team_scores[team]` (the audit list of
(ticket, rounded similarity) pairs is presentation-only and omitted). -/
structure TeamScore where
  base_score : ℚ
  keyword_boost : ℚ
  component_boost : ℚ
  final_score : ℚ
  count : ℕ
  max_similarity : ℚ
deriving DecidableEq

/-- Dict insert-or-update for `team_scores[team]`: a fresh entry starts
at zeros (insertion at the end, as Python dicts preserve insertion
order), then `base_score`, `count` and `max_similarity` are updated. -/
def addMatch : List (String × TeamScore) → String → ℚ → ℚ → List (String × TeamScore)
  | [], team, base, sim =>
      [(team, { base_score := base
                keyword_boost := 0
                component_boost := 0
                final_score := 0
                count := 1
                max_similarity := max 0 sim })]
  | (k, s) :: rest, team, base, sim =>
      if k = team then
        (k, { s with
              base_score := s.base_score + base
              count := s.count + 1
              max_similarity := max s.max_similarity sim }) :: rest
      else (k, s) :: addMatch rest team base sim

/-- The accumulation loop of `assign_team_with_fine_tuning` (lines
319-349): enumerate all matches with their index `i` in the returned
list, keep those with `similarity = 1 - distance >= threshold`, apply
the linear rank decay `similarity * (1 - i * 0.02)` and accumulate per
team, bucketing a missing `technical_owner` under "Unknown". -/
def scanGo (thr : ℚ) : List TicketMatch → ℕ → List (String × TeamScore) → ℕ →
    List (String × TeamScore) × ℕ
  | [], _, scores, valid => (scores, valid)
  | m :: rest, i, scores, valid =>
      let similarity := 1 - m.distance
      if similarity ≥ thr then
        let team := m.technical_owner.getD "Unknown"
        let base := similarity * (1 - (i : ℚ) * (2/100))
        scanGo thr rest (i + 1) (addMatch scores team base similarity) (valid + 1)
      else scanGo thr rest (i + 1) scores valid

def scanMatches (thr : ℚ) (sim_matches : List TicketMatch) :
    List (String × TeamScore) × ℕ :=
  scanGo thr sim_matches 0 [] 0

/-- Lines 358-379: if fine-tuning is enabled compute both boosts and
`final = base/count + boosts`; otherwise report zero boosts and
`final = base/count`. -/
def applyTuning (enable_fine_tuning : Bool) (content : String)
    (components : List String) (scores : List (String × TeamScore)) :
    List (String × TeamScore) :=
  if enable_fine_tuning then
    scores.map (fun ts =>
      let kb := calculate_keyword_boost content ts.1
      let cb := calculate_component_boost components ts.1
      (ts.1, { ts.2 with
               keyword_boost := kb
               component_boost := cb
               final_score := ts.2.base_score / (ts.2.count : ℚ) + kb + cb }))
  else
    scores.map (fun ts =>
      (ts.1, { ts.2 with
               keyword_boost := 0
               component_boost := 0
               final_score := ts.2.base_score / (ts.2.count : ℚ) }))

/-- One row of the returned `team_analysis` dict. -/
structure TeamAnalysis where
  final_score : ℚ
  base_score : ℚ
  keyword_boost : ℚ
  component_boost : ℚ
  ticket_count : ℕ
  max_similarity : ℚ
deriving DecidableEq

def analysisEntry (ts : String × TeamScore) : String × TeamAnalysis :=
  (ts.1, { final_score := ts.2.final_score
           base_score := ts.2.base_score / (ts.2.count : ℚ)
           keyword_boost := ts.2.keyword_boost
           component_boost := ts.2.component_boost
           ticket_count := ts.2.count
           max_similarity := ts.2.max_similarity })

/-- The dictionaries `assign_team_with_fine_tuning` can return, one
constructor per `status` (the `already_assigned` and error shapes kept
for the early-return paths). -/
inductive AssignResult where
  | fetch_error (msg : String)
  | already_assigned (ticket : String) (current_owner : String)
  | insufficient_data (ticket : String) (message : String)
  | no_teams_found (ticket : String) (message : String)
  | recommendation (ticket recommended_team : String)
      (final_score base_score keyword_boost component_boost : ℚ)
      (similar_tickets_count : ℕ) (fine_tuning_enabled : Bool)
      (team_analysis : List (String × TeamAnalysis)) (components : List String)
deriving DecidableEq

/-- `assign_team_with_fine_tuning` (lines 295-416), with the network
I/O passed in: `current_owner` is the ticket's `customfield_15906`
value, `content` the prepared ticket content, `matches` the retriever's
ranked result list.  `max` over the score dict keeps the first maximal
entry in insertion order, which the fold with a strict `>` reproduces. -/
def assign_team_with_fine_tuning (ticket_key : String)
    (current_owner : Option String) (content : String)
    (components : List String) (sim_matches : List TicketMatch)
    (similarity_threshold : ℚ) (min_similar_tickets : ℕ)
    (enable_fine_tuning : Bool) : AssignResult :=
  match current_owner with
  | some owner => .already_assigned ticket_key owner
  | none =>
    let scanned := scanMatches similarity_threshold sim_matches
    let valid_matches := scanned.2
    if valid_matches < min_similar_tickets then
      .insufficient_data ticket_key
        ("Only " ++ toString valid_matches ++
         " similar tickets found (minimum: " ++ toString min_similar_tickets ++ ")")
    else
      match applyTuning enable_fine_tuning content components scanned.1 with
      | [] => .no_teams_found ticket_key "No teams found in similar tickets"
      | x :: xs =>
        let best := xs.foldl
          (fun b y => if y.2.final_score > b.2.final_score then y else b) x
        .recommendation ticket_key best.1 best.2.final_score
          (best.2.base_score / (best.2.count : ℚ))
          best.2.keyword_boost best.2.component_boost valid_matches
          enable_fine_tuning ((x :: xs).map analysisEntry) components

/-! ## LLM Arbitrator (`_predict_team_with_llm`, lines 524-627)

Python string primitives, in kernel-computable form over `List Char`. -/

/-- Python `str.replace(pat, rep)`: replace every non-overlapping
occurrence left to right (never called with an empty pattern here). -/
def replaceAll (pat rep : List Char) (s : List Char) : List Char :=
  match s with
  | [] => []
  | c :: rest =>
    if pat.isPrefixOf (c :: rest) then
      rep ++ replaceAll pat rep (rest.drop (pat.length - 1))
    else c :: replaceAll pat rep rest
termination_by s.length
decreasing_by
  · simp only [List.length_cons, List.length_drop]
    omega
  · simp only [List.length_cons]
    omega

def pyReplace (s pat rep : String) : String :=
  String.mk (replaceAll pat.toList rep.toList s.toList)

def pyStartsWith (s pre : String) : Bool :=
  pre.toList.isPrefixOf s.toList

/-- Whitespace for Python `str.strip()`. -/
def isPySpace (c : Char) : Bool :=
  c == ' ' || c == '\t' || c == '\n' || c == '\r' || c == '\x0b' || c == '\x0c'

def pyStrip (s : String) : String :=
  String.mk (((s.toList.dropWhile isPySpace).reverse.dropWhile isPySpace).reverse)

def splitChar (sep : Char) : List Char → List (List Char)
  | [] => [[]]
  | c :: rest =>
    match splitChar sep rest with
    | [] => [[c]]
    | acc :: accs => if c = sep then [] :: acc :: accs else (c :: acc) :: accs

/-- Python `str.split(c)` for a single-character separator. -/
def pySplitLines (s : String) : List String :=
  (splitChar '\n' s.toList).map String.mk

/-- One similar-ticket context entry handed to the arbitrator
(built in `process_webhook_ticket`, lines 700-707). -/
structure SimTicket where
  ticket_id : String
  team : String
  summary : String
  distance : ℚ
deriving DecidableEq

/-- `team_votes[team] = team_votes.get(team, 0) + 1` on an
insertion-ordered dict. -/
def bumpVote : List (String × ℕ) → String → List (String × ℕ)
  | [], t => [(t, 1)]
  | (k, v) :: rest, t =>
      if k = t then (k, v + 1) :: rest else (k, v) :: bumpVote rest t

def voteCount (similar_tickets : List SimTicket) : List (String × ℕ) :=
  similar_tickets.foldl (fun acc s => bumpVote acc s.team) []

/-- `max(team_votes.items(), key=lambda x: x[1])`: first maximal entry
in insertion order; Python `max` raises on an empty sequence (`none`). -/
def pickMaxVotes : List (String × ℕ) → Option (String × ℕ)
  | [] => none
  | x :: xs => some (xs.foldl (fun b y => if y.2 > b.2 then y else b) x)

/-- The vote-counting fallback in the `except` handler (lines 618-627).
`none` models the uncaught `ValueError`/`ZeroDivisionError` that `max`
over an empty vote dict raises out of the handler. -/
def llmFailedFallback (similar_tickets : List SimTicket) :
    Option (String × ℚ × String) :=
  match pickMaxVotes (voteCount similar_tickets) with
  | none => none
  | some tv =>
      some (tv.1, (tv.2 : ℚ) / (similar_tickets.length : ℚ),
        "LLM failed, used vote counting: " ++ toString tv.2 ++ "/" ++
        toString similar_tickets.length ++ " votes")

/-- The vote-counting fallback for a well-formed call whose response
lacked a usable `TEAM:` line (lines 604-613).  On an empty list the
`ValueError` raised inside the `try` is caught by the `except` handler,
whose own `max` then raises out: `none` either way. -/
def voteCountFallback (similar_tickets : List SimTicket) :
    Option (String × ℚ × String) :=
  match pickMaxVotes (voteCount similar_tickets) with
  | none => none
  | some tv =>
      some (tv.1, (tv.2 : ℚ) / (similar_tickets.length : ℚ),
        "Vote counting fallback: " ++ toString tv.2 ++ "/" ++
        toString similar_tickets.length ++ " similar tickets assigned to " ++ tv.1)

/-- The response-parsing loop (lines 591-602): scan lines in order for
the three prefixes; `float(...)` on a bad `CONFIDENCE:` value raises
(`Except.error`), aborting the loop into the `except` handler.
`parseFloat` abstracts Python `float()` (`none` = `ValueError`). -/
def parseLoop (parseFloat : String → Option ℚ) :
    List String → Option String → ℚ → String →
    Except Unit (Option String × ℚ × String)
  | [], team, confidence, reasoning => .ok (team, confidence, reasoning)
  | line :: rest, team, confidence, reasoning =>
    if pyStartsWith line "TEAM:" then
      parseLoop parseFloat rest (some (pyStrip (pyReplace line "TEAM:" "")))
        confidence reasoning
    else if pyStartsWith line "CONFIDENCE:" then
      match parseFloat (pyStrip (pyReplace line "CONFIDENCE:" "")) with
      | some c => parseLoop parseFloat rest team c reasoning
      | none => .error ()
    else if pyStartsWith line "REASONING:" then
      parseLoop parseFloat rest team confidence
        (pyStrip (pyReplace line "REASONING:" ""))
    else parseLoop parseFloat rest team confidence reasoning

/-- `_predict_team_with_llm`: `llm_response = none` models a failed
model call (any exception before parsing); `some` carries the response
text.  Initial confidence is `0.5`, initial reasoning `""`; a parsed
team that is `None` or `""` is falsy and triggers the vote fallback. -/
def predict_team_with_llm (parseFloat : String → Option ℚ)
    (llm_response : Option String) (similar_tickets : List SimTicket) :
    Option (String × ℚ × String) :=
  match llm_response with
  | none => llmFailedFallback similar_tickets
  | some resp =>
    match parseLoop parseFloat (pySplitLines (pyStrip resp)) none (1/2) "" with
    | .error _ => llmFailedFallback similar_tickets
    | .ok (team, confidence, reasoning) =>
      match team with
      | none => voteCountFallback similar_tickets
      | some t =>
          if t = "" then voteCountFallback similar_tickets
          else some (t, confidence, reasoning)

/-- The inputs on which `_predict_team_with_llm` takes one of its two
vote-counting fallback paths instead of returning the parsed triple. -/
def fallbackTriggered (parseFloat : String → Option ℚ)
    (llm_response : Option String) : Bool :=
  match llm_response with
  | none => true
  | some resp =>
    match parseLoop parseFloat (pySplitLines (pyStrip resp)) none (1/2) "" with
    | .error _ => true
    | .ok (team, _, _) =>
      match team with
      | none => true
      | some t => t == ""

/-! ## Assignment Committer (app/jira_client.py)

The HTTP world is passed in as explicit outcomes: `ReadOutcome` is what
the GET inside `get_technical_owner` does, `WriteOutcome` what the PUT
inside `update_technical_owner` would do if issued. -/

inductive ReadOutcome where
  | ok (field_value : Option String)
  | httpError (status : ℕ)
  | exn (msg : String)
deriving DecidableEq

/-- `get_technical_owner` (lines 196-231): on HTTP 200 return the field
value unless it is falsy (absent or empty string); on a non-200 status
or any exception, log and return `None`. -/
def get_technical_owner : ReadOutcome → Option String
  | .ok (some v) => if v = "" then none else some v
  | .ok none => none
  | .httpError _ => none
  | .exn _ => none

inductive WriteOutcome where
  | noContent
  | notFound
  | otherStatus (status : ℕ) (errorText : String)
  | timeout
  | exn (msg : String)
deriving DecidableEq

/-- The dict `update_technical_owner` returns. -/
structure UpdateResult where
  success : Bool
  status_code : ℕ
  message : String
  skip_reason : Option String
deriving DecidableEq

/-- `update_technical_owner` (lines 233-307): re-read the Technical
Owner; if truthy, abort with `already_assigned` and issue no PUT;
otherwise issue the PUT and map its outcome to a result dict.  The
second component counts the PUT (write) calls issued. -/
def update_technical_owner (issue_key team_name : String)
    (reread : ReadOutcome) (write : WriteOutcome) : UpdateResult × ℕ :=
  match get_technical_owner reread with
  | some current_owner =>
      ({ success := false
         status_code := 200
         message := "Technical Owner already set to: " ++ current_owner
         skip_reason := some "already_assigned" }, 0)
  | none =>
      match write with
      | .noContent =>
          ({ success := true
             status_code := 204
             message := "Technical Owner updated to " ++ team_name
             skip_reason := none }, 1)
      | .notFound =>
          ({ success := false
             status_code := 404
             message := "Issue " ++ issue_key ++ " not found"
             skip_reason := none }, 1)
      | .otherStatus s e =>
          ({ success := false
             status_code := s
             message := "Update failed: " ++ e
             skip_reason := none }, 1)
      | .timeout =>
          ({ success := false
             status_code := 0
             message := "Request timeout"
             skip_reason := none }, 1)
      | .exn m =>
          ({ success := false
             status_code := 0
             message := m
             skip_reason := none }, 1)

/-! ## Polling Scheduler (scripts/auto_assign_scheduler.py)

### Single-flight lock (`run_once`, lines 205-288)

asyncio is cooperative and single-threaded, so the lock check and set
(lines 208-214) form one atomic segment; a tick's body may suspend at
awaits, during which another `run_once` call can be entered.  A
scheduler state is the `is_running` flag together with the number of
tick bodies that have been entered (not skipped) and have not yet run
their `finally`. -/

structure SchedState where
  is_running : Bool
  active : ℕ
deriving DecidableEq

inductive SchedEvent where
  | tick
  | finish (failed : Bool)
  | pause
deriving DecidableEq

/-- Atomic transitions: a tick entering `run_once` is skipped whole
when the flag is up, otherwise sets the flag and starts a body; a body
ending (normally or by an exception) runs the `finally`, which always
clears the flag; `pause` is any await suspension, which touches
nothing. -/
inductive SchedStep : SchedState → SchedEvent → SchedState → Prop where
  | tick_skipped (s : SchedState) :
      s.is_running = true → SchedStep s .tick s
  | tick_started (s : SchedState) :
      s.is_running = false → SchedStep s .tick ⟨true, s.active + 1⟩
  | tick_finished (s : SchedState) (failed : Bool) (n : ℕ) :
      s.active = n + 1 → SchedStep s (.finish failed) ⟨false, n⟩
  | await_pause (s : SchedState) : SchedStep s .pause s

def initSched : SchedState := ⟨false, 0⟩

inductive SchedReachable : SchedState → Prop where
  | init : SchedReachable initSched
  | step (s s' : SchedState) (e : SchedEvent) :
      SchedReachable s → SchedStep s e s' → SchedReachable s'

/-! ### Per-tick processing loop (`run_once` lines 229-260,
`process_ticket` lines 129-203)

`process_ticket` catches every exception and returns an error dict, so
the loop body always reaches the `processed_tickets.add`; the outcome
oracle maps a ticket key to the `status` string of the result dict. -/

structure LoopState where
  processed : Finset String
  success_count : ℕ
  skipped_count : ℕ
  failed_count : ℕ
  attempted : List String
deriving DecidableEq

/-- One iteration of the `for ticket_key in new_tickets` loop: attempt
the ticket, tally its status, and add it to the processed set
regardless of the outcome. -/
def step_ticket (outcome : String → String) (st : LoopState)
    (ticket_key : String) : LoopState :=
  let status := outcome ticket_key
  { processed := insert ticket_key st.processed
    success_count := st.success_count + (if status = "success" then 1 else 0)
    skipped_count := st.skipped_count + (if status = "skipped" then 1 else 0)
    failed_count := st.failed_count +
      (if status = "success" ∨ status = "skipped" then 0 else 1)
    attempted := st.attempted ++ [ticket_key] }

def process_batch (outcome : String → String) (new_tickets : List String)
    (st : LoopState) : LoopState :=
  new_tickets.foldl (step_ticket outcome) st

/-- The non-skipped part of `run_once`: drop fetched keys already in the
processed set, then run the loop over the remainder. -/
def run_tick_core (outcome : String → String) (fetched : List String)
    (processed0 : Finset String) : LoopState :=
  let new_tickets := fetched.filter (fun k => decide (k ∉ processed0))
  process_batch outcome new_tickets ⟨processed0, 0, 0, 0, []⟩

def SchedEvent.isFinish : SchedEvent → Bool
  | .finish _ => true
  | _ => false

/-! ## Derived notions used only in theorem statements and proofs -/

/-- First value stored under a key in an association list. -/
def countOf : List (String × ℕ) → String → ℕ
  | [], _ => 0
  | (k, v) :: rest, t => if k = t then v else countOf rest t

/-- Inner loop of `_calculate_keyword_boost`: total contribution of one
keyword's `[(team, weight)]` row to `team`, from zero. -/
def kwInnerSum (team : String) (tws : List (String × ℚ)) : ℚ :=
  tws.foldl (fun b2 tw => if tw.1 = team then b2 + tw.2 * (1/10) else b2) 0

/-- Contribution of one keyword row of the table to `team` for a given
lower-cased content. -/
def kwContrib (content_lower team : String) (kv : String × List (String × ℚ)) : ℚ :=
  if isSubstr kv.1 content_lower then kwInnerSum team kv.2 else 0

/-- A component that `_calculate_component_boost` counts for `team`. -/
def componentMatches (team c : String) : Bool :=
  List.lookup c component_weights == some team

/-- The boosts and final scores `assign_team_with_fine_tuning` reports
when fine-tuning is disabled: zero boosts everywhere, `final_score`
equal to the reported per-team average base score. -/
def boostsZeroReported : AssignResult → Prop
  | .recommendation _ _ fs bs kb cb _ _ ta _ =>
      kb = 0 ∧ cb = 0 ∧ fs = bs ∧
      ∀ e ∈ ta, e.2.keyword_boost = 0 ∧ e.2.component_boost = 0 ∧
        e.2.final_score = e.2.base_score
  | _ => True

/-! ## Lemmas -/

lemma sched_invariant (s : SchedState) (h : SchedReachable s) :
    s.active ≤ 1 ∧ (s.is_running = false → s.active = 0) := by
  induction h with
  | init => exact ⟨Nat.zero_le 1, fun _ => rfl⟩
  | step s s' e _ hstep ih =>
    cases hstep with
    | tick_skipped hrun => exact ih
    | tick_started hrun =>
      have h0 : s.active = 0 := ih.2 hrun
      refine ⟨?_, ?_⟩
      · simp [h0]
      · intro hfalse
        simp at hfalse
    | tick_finished failed n hn =>
      have h1 : s.active ≤ 1 := ih.1
      have hn0 : n = 0 := by omega
      subst hn0
      exact ⟨Nat.zero_le 1, fun _ => rfl⟩
    | await_pause => exact ih

lemma batch_attempted (outcome : String → String) (l : List String) :
    ∀ st : LoopState,
      (process_batch outcome l st).attempted = st.attempted ++ l := by
  induction l with
  | nil => intro st; simp [process_batch]
  | cons k rest ih =>
    intro st
    simp only [process_batch, List.foldl_cons] at *
    rw [ih]
    simp [step_ticket]

lemma batch_processed (outcome : String → String) (l : List String) :
    ∀ st : LoopState,
      (process_batch outcome l st).processed = st.processed ∪ l.toFinset := by
  induction l with
  | nil => intro st; simp [process_batch]
  | cons k rest ih =>
    intro st
    simp only [process_batch, List.foldl_cons] at *
    rw [ih]
    simp only [step_ticket, List.toFinset_cons]
    ext a
    simp [Finset.mem_union, Finset.mem_insert]

lemma batch_counts (outcome : String → String) (l : List String) :
    ∀ st : LoopState,
      (process_batch outcome l st).success_count +
        (process_batch outcome l st).skipped_count +
        (process_batch outcome l st).failed_count =
      st.success_count + st.skipped_count + st.failed_count + l.length := by
  induction l with
  | nil => intro st; simp [process_batch]
  | cons k rest ih =>
    intro st
    simp only [process_batch, List.foldl_cons] at *
    rw [ih]
    simp only [step_ticket, List.length_cons]
    by_cases h1 : outcome k = "success" <;> by_cases h2 : outcome k = "skipped" <;>
      simp [h1, h2] <;> omega

lemma scanGo_valid (thr : ℚ) (l : List TicketMatch) :
    ∀ (i v : ℕ) (scores : List (String × TeamScore)),
      (scanGo thr l i scores v).2 =
        v + l.countP (fun m => decide (1 - m.distance ≥ thr)) := by
  induction l with
  | nil => intro i v scores; simp [scanGo]
  | cons m rest ih =>
    intro i v scores
    by_cases h : 1 - m.distance ≥ thr
    · simp only [scanGo, if_pos h]
      rw [ih]
      simp [List.countP_cons, h]
      omega
    · simp only [scanGo, if_neg h]
      rw [ih]
      simp [List.countP_cons, h]

lemma scanGo_scores_of_no_valid (thr : ℚ) (l : List TicketMatch) :
    ∀ (i v : ℕ) (scores : List (String × TeamScore)),
      l.countP (fun m => decide (1 - m.distance ≥ thr)) = 0 →
      (scanGo thr l i scores v).1 = scores := by
  induction l with
  | nil => intro i v scores _; simp [scanGo]
  | cons m rest ih =>
    intro i v scores h
    by_cases hc : 1 - m.distance ≥ thr
    · exfalso
      simp [List.countP_cons, hc] at h
    · simp only [scanGo, if_neg hc]
      exact ih (i + 1) v scores (by simpa [List.countP_cons, hc] using h)

lemma applyTuning_false_mem (content : String) (components : List String)
    (scores : List (String × TeamScore)) (ts : String × TeamScore)
    (h : ts ∈ applyTuning false content components scores) :
    ts.2.keyword_boost = 0 ∧ ts.2.component_boost = 0 ∧
    ts.2.final_score = ts.2.base_score / (ts.2.count : ℚ) := by
  simp only [applyTuning, Bool.false_eq_true, reduceIte] at h
  rw [List.mem_map] at h
  obtain ⟨a, -, rfl⟩ := h
  exact ⟨rfl, rfl, rfl⟩

lemma foldl_binary_mem {α : Type} (g : α → α → α)
    (hg : ∀ b y, g b y = b ∨ g b y = y) :
    ∀ (xs : List α) (x : α), xs.foldl g x ∈ x :: xs := by
  intro xs
  induction xs with
  | nil => intro x; simp
  | cons y ys ih =>
    intro x
    simp only [List.foldl_cons]
    rcases hg x y with h | h <;> rw [h]
    · have h2 := ih x
      simp only [List.mem_cons] at h2 ⊢
      tauto
    · have h2 := ih y
      simp only [List.mem_cons] at h2 ⊢
      tauto

lemma applyTuning_nil (enable_fine_tuning : Bool) (content : String)
    (components : List String) :
    applyTuning enable_fine_tuning content components [] = [] := by
  cases enable_fine_tuning <;> simp [applyTuning]

lemma foldl_add_eq_sum {α : Type} (g : α → ℚ) (l : List α) :
    ∀ b : ℚ, l.foldl (fun acc x => acc + g x) b = b + (l.map g).sum := by
  induction l with
  | nil => intro b; simp
  | cons x rest ih =>
    intro b
    simp only [List.foldl_cons, List.map_cons, List.sum_cons]
    rw [ih]
    ring

lemma kwInnerStep_eq (team : String) :
    (fun (b2 : ℚ) (tw : String × ℚ) =>
        if tw.1 = team then b2 + tw.2 * (1/10) else b2) =
      fun b2 tw => b2 + (if tw.1 = team then tw.2 * (1/10) else 0) := by
  funext b2 tw
  by_cases h : tw.1 = team <;> simp [h]

lemma kwInnerSum_eq_sum (team : String) (tws : List (String × ℚ)) :
    kwInnerSum team tws =
      (tws.map (fun tw => if tw.1 = team then tw.2 * (1/10) else 0)).sum := by
  rw [kwInnerSum, kwInnerStep_eq, foldl_add_eq_sum]
  ring

lemma kwOuterStep_eq (content_lower team : String) :
    (fun (b : ℚ) (kv : String × List (String × ℚ)) =>
        if isSubstr kv.1 content_lower then
          kv.2.foldl (fun b2 tw => if tw.1 = team then b2 + tw.2 * (1/10) else b2) b
        else b) =
      fun b kv => b + kwContrib content_lower team kv := by
  funext b kv
  by_cases h : isSubstr kv.1 content_lower
  · rw [if_pos h, kwContrib, if_pos h, kwInnerStep_eq, foldl_add_eq_sum,
      kwInnerSum_eq_sum]
  · rw [if_neg h, kwContrib, if_neg h, add_zero]

lemma calculate_keyword_boost_eq (ticket_content team : String) :
    calculate_keyword_boost ticket_content team =
      min ((keyword_team_mapping.map
        (kwContrib (pyLower ticket_content) team)).sum) (3/10) := by
  simp only [calculate_keyword_boost]
  rw [kwOuterStep_eq, foldl_add_eq_sum, zero_add]

lemma keyword_weights_nonneg :
    ∀ kv ∈ keyword_team_mapping, ∀ tw ∈ kv.2, (0 : ℚ) ≤ tw.2 := by
  intro kv hkv tw htw
  fin_cases hkv <;> rw [List.mem_singleton] at htw <;> subst htw <;> norm_num

lemma kwContrib_nonneg (content_lower team : String)
    (kv : String × List (String × ℚ)) (hkv : kv ∈ keyword_team_mapping) :
    0 ≤ kwContrib content_lower team kv := by
  rw [kwContrib]
  split
  · rw [kwInnerSum_eq_sum]
    apply List.sum_nonneg
    intro x hx
    rw [List.mem_map] at hx
    obtain ⟨tw, htw, rfl⟩ := hx
    have := keyword_weights_nonneg kv hkv tw htw
    split
    · positivity
    · exact le_refl 0
  · exact le_refl 0

lemma compStep_eq (team : String) :
    (fun (b : ℚ) (c : String) =>
        match List.lookup c component_weights with
        | some preferred_team => if preferred_team = team then b + 15/100 else b
        | none => b) =
      fun b c => b + (if componentMatches team c then (15/100 : ℚ) else 0) := by
  funext b c
  rw [componentMatches]
  match hl : List.lookup c component_weights with
  | none => simp [hl]
  | some p =>
    by_cases h : p = team
    · simp [hl, h]
    · simp [hl, h]

lemma sum_if_count (p : String → Bool) (q : ℚ) (l : List String) :
    (l.map (fun c => if p c then q else 0)).sum = q * (l.countP p : ℚ) := by
  induction l with
  | nil => simp
  | cons c rest ih =>
    simp only [List.map_cons, List.sum_cons, List.countP_cons, ih]
    by_cases h : p c = true <;> simp [h] <;> push_cast <;> ring

lemma calculate_component_boost_eq (components : List String) (team : String) :
    calculate_component_boost components team =
      min ((15/100 : ℚ) * (components.countP (componentMatches team) : ℚ))
        (2/10) := by
  simp only [calculate_component_boost]
  rw [compStep_eq, foldl_add_eq_sum, zero_add, sum_if_count]

lemma bumpVote_countOf (u t : String) :
    ∀ l : List (String × ℕ),
      countOf (bumpVote l u) t = countOf l t + (if u = t then 1 else 0) := by
  intro l
  induction l with
  | nil =>
    by_cases h : u = t <;> simp [bumpVote, countOf, h]
  | cons kv rest ih =>
    obtain ⟨k, v⟩ := kv
    by_cases hk : k = u
    · subst hk
      by_cases ht : k = t
      · subst ht
        simp [bumpVote, countOf]
      · simp [bumpVote, countOf, ht]
    · by_cases ht : k = t
      · have hut : ¬ u = t := fun he => hk (ht.trans he.symm)
        have htu : ¬ t = u := fun he => hk (ht.trans he)
        simp [bumpVote, countOf, hk, ht, hut, htu]
      · simp [bumpVote, countOf, hk, ht, ih]

lemma voteCount_go_countOf (t : String) (sims : List SimTicket) :
    ∀ acc : List (String × ℕ),
      countOf (sims.foldl (fun a s => bumpVote a s.team) acc) t =
        countOf acc t + sims.countP (fun s => s.team == t) := by
  induction sims with
  | nil => intro acc; simp
  | cons s rest ih =>
    intro acc
    simp only [List.foldl_cons]
    rw [ih, bumpVote_countOf]
    simp only [List.countP_cons]
    by_cases h : s.team = t <;> simp [h] <;> omega

lemma voteCount_countOf (sims : List SimTicket) (t : String) :
    countOf (voteCount sims) t = sims.countP (fun s => s.team == t) := by
  rw [voteCount, voteCount_go_countOf]
  simp [countOf]

lemma bumpVote_not_mem (u : String) :
    ∀ l : List (String × ℕ), u ∉ l.map Prod.fst →
      bumpVote l u = l ++ [(u, 1)] := by
  intro l
  induction l with
  | nil => intro _; rfl
  | cons kv rest ih =>
    obtain ⟨k, v⟩ := kv
    intro h
    simp only [List.map_cons, List.mem_cons] at h
    push_neg at h
    simp only [bumpVote, if_neg (fun he : k = u => h.1 he.symm)]
    rw [ih h.2]
    simp

lemma bumpVote_mem_keys (u : String) :
    ∀ l : List (String × ℕ), u ∈ l.map Prod.fst →
      (bumpVote l u).map Prod.fst = l.map Prod.fst := by
  intro l
  induction l with
  | nil => intro h; cases h
  | cons kv rest ih =>
    obtain ⟨k, v⟩ := kv
    intro h
    by_cases hk : k = u
    · simp [bumpVote, hk]
    · have h2 : u ∈ rest.map Prod.fst := by
        rcases List.mem_cons.mp h with h3 | h3
        · exact absurd h3.symm hk
        · exact h3
      simp [bumpVote, hk, ih h2]

lemma bumpVote_nodup_keys (u : String) (l : List (String × ℕ))
    (h : (l.map Prod.fst).Nodup) : ((bumpVote l u).map Prod.fst).Nodup := by
  by_cases hm : u ∈ l.map Prod.fst
  · rw [bumpVote_mem_keys u l hm]
    exact h
  · rw [bumpVote_not_mem u l hm]
    simp only [List.map_append, List.map_cons, List.map_nil]
    rw [List.nodup_append]
    refine ⟨h, List.nodup_singleton u, ?_⟩
    intro a ha hb
    rw [List.mem_singleton] at hb
    exact hm (hb ▸ ha)

lemma voteCount_nodup_keys (sims : List SimTicket) :
    ((voteCount sims).map Prod.fst).Nodup := by
  rw [voteCount]
  suffices hgen : ∀ acc : List (String × ℕ), (acc.map Prod.fst).Nodup →
      ((sims.foldl (fun a s => bumpVote a s.team) acc).map Prod.fst).Nodup by
    exact hgen [] (by simp)
  induction sims with
  | nil => intro acc h; simpa using h
  | cons s rest ih =>
    intro acc h
    simp only [List.foldl_cons]
    exact ih _ (bumpVote_nodup_keys s.team acc h)

lemma countOf_of_mem_nodup :
    ∀ l : List (String × ℕ), (l.map Prod.fst).Nodup →
      ∀ kv ∈ l, countOf l kv.1 = kv.2 := by
  intro l
  induction l with
  | nil => intro _ kv h; cases h
  | cons a rest ih =>
    intro hnd kv hkv
    obtain ⟨k, v⟩ := a
    simp only [List.map_cons, List.nodup_cons] at hnd
    rcases List.mem_cons.mp hkv with h | h
    · rw [h]
      simp [countOf]
    · have hne : ¬ k = kv.1 := by
        intro he
        apply hnd.1
        rw [he]
        exact List.mem_map_of_mem Prod.fst h
      simp only [countOf, if_neg hne]
      exact ih hnd.2 kv h

lemma countOf_mem_or_zero (t : String) :
    ∀ l : List (String × ℕ), (t, countOf l t) ∈ l ∨ countOf l t = 0 := by
  intro l
  induction l with
  | nil => right; rfl
  | cons a rest ih =>
    obtain ⟨k, v⟩ := a
    by_cases h : k = t
    · left
      subst h
      simp [countOf]
    · rcases ih with h2 | h2
      · left
        simp only [countOf, if_neg h]
        exact List.mem_cons_of_mem _ h2
      · right
        simp [countOf, h, h2]

lemma foldl_max_votes_ge (xs : List (String × ℕ)) :
    ∀ x y : String × ℕ, y ∈ x :: xs →
      y.2 ≤ (xs.foldl (fun b z => if z.2 > b.2 then z else b) x).2 := by
  induction xs with
  | nil =>
    intro x y hy
    rw [List.mem_singleton] at hy
    rw [hy]
    simp
  | cons z zs ih =>
    intro x y hy
    simp only [List.foldl_cons]
    have hx : x.2 ≤ (if z.2 > x.2 then z else x).2 := by split <;> omega
    have hz : z.2 ≤ (if z.2 > x.2 then z else x).2 := by split <;> omega
    have hhead := ih (if z.2 > x.2 then z else x) (if z.2 > x.2 then z else x)
      (List.mem_cons_self _ _)
    rcases List.mem_cons.mp hy with rfl | h
    · exact le_trans hx hhead
    · rcases List.mem_cons.mp h with rfl | h2
      · exact le_trans hz hhead
      · exact ih _ y (List.mem_cons_of_mem _ h2)

lemma pickMaxVotes_spec (l : List (String × ℕ)) (m : String × ℕ)
    (h : pickMaxVotes l = some m) : m ∈ l ∧ ∀ y ∈ l, y.2 ≤ m.2 := by
  match l with
  | [] => cases h
  | x :: xs =>
    simp only [pickMaxVotes, Option.some.injEq] at h
    subst h
    refine ⟨?_, fun y hy => foldl_max_votes_ge xs x y hy⟩
    exact foldl_binary_mem _
      (fun b y => by by_cases hc : y.2 > b.2 <;> simp [hc]) xs x

lemma bumpVote_ne_nil (l : List (String × ℕ)) (u : String) :
    bumpVote l u ≠ [] := by
  match l with
  | [] => simp [bumpVote]
  | (k, v) :: rest =>
    simp only [bumpVote]
    split <;> simp

lemma voteCount_ne_nil (sims : List SimTicket) (h : sims ≠ []) :
    voteCount sims ≠ [] := by
  have hgen : ∀ (l : List SimTicket) (acc : List (String × ℕ)), acc ≠ [] →
      l.foldl (fun a x => bumpVote a x.team) acc ≠ [] := by
    intro l
    induction l with
    | nil => intro acc h2; simpa using h2
    | cons x xs ih =>
      intro acc _
      simp only [List.foldl_cons]
      exact ih _ (bumpVote_ne_nil acc x.team)
  match sims with
  | [] => exact absurd rfl h
  | s :: rest =>
    rw [voteCount]
    simp only [List.foldl_cons]
    exact hgen rest _ (bumpVote_ne_nil [] s.team)

/-- The team `max` picks from the vote dict got the most votes, and its
stored count is its exact vote count over the similar-ticket list. -/
lemma pickMax_voteCount_spec (sims : List SimTicket) (h : sims ≠ []) :
    ∃ tv : String × ℕ, pickMaxVotes (voteCount sims) = some tv ∧
      tv.2 = sims.countP (fun s => s.team == tv.1) ∧
      ∀ t' : String, sims.countP (fun s => s.team == t') ≤ tv.2 := by
  have hne := voteCount_ne_nil sims h
  obtain ⟨m, hm⟩ : ∃ m, pickMaxVotes (voteCount sims) = some m := by
    match hvc : voteCount sims with
    | [] => exact absurd hvc hne
    | x :: xs => exact ⟨_, rfl⟩
  obtain ⟨hmem, hmax⟩ := pickMaxVotes_spec _ m hm
  refine ⟨m, hm, ?_, ?_⟩
  · have hnd := voteCount_nodup_keys sims
    have h2 := countOf_of_mem_nodup (voteCount sims) hnd m hmem
    rw [voteCount_countOf] at h2
    exact h2.symm
  · intro t'
    rw [← voteCount_countOf]
    rcases countOf_mem_or_zero t' (voteCount sims) with h2 | h2
    · exact hmax _ h2
    · rw [h2]
      exact Nat.zero_le _

lemma llmFailedFallback_spec (sims : List SimTicket) (h : sims ≠ []) :
    ∃ t c r, llmFailedFallback sims = some (t, c, r) ∧
      c = (sims.countP (fun s => s.team == t) : ℚ) / (sims.length : ℚ) ∧
      ∀ t', sims.countP (fun s => s.team == t') ≤
        sims.countP (fun s => s.team == t) := by
  obtain ⟨tv, htv, hcnt, hmax⟩ := pickMax_voteCount_spec sims h
  refine ⟨tv.1, (tv.2 : ℚ) / (sims.length : ℚ), _,
    by rw [llmFailedFallback, htv], by rw [hcnt], ?_⟩
  intro t'
  rw [← hcnt]
  exact hmax t'

lemma voteCountFallback_spec (sims : List SimTicket) (h : sims ≠ []) :
    ∃ t c r, voteCountFallback sims = some (t, c, r) ∧
      c = (sims.countP (fun s => s.team == t) : ℚ) / (sims.length : ℚ) ∧
      ∀ t', sims.countP (fun s => s.team == t') ≤
        sims.countP (fun s => s.team == t) := by
  obtain ⟨tv, htv, hcnt, hmax⟩ := pickMax_voteCount_spec sims h
  refine ⟨tv.1, (tv.2 : ℚ) / (sims.length : ℚ), _,
    by rw [voteCountFallback, htv], by rw [hcnt], ?_⟩
  intro t'
  rw [← hcnt]
  exact hmax t'

/-! ## Claims -/

/-- C1: `update_technical_owner` never overwrites a non-empty
owning-team field: whenever the pre-write re-read
(`get_technical_owner`) returns a non-empty value, the commit returns
an `already_assigned` (non-success) result and issues no write call. -/
theorem committer_never_overwrites (issue_key team_name owner : String)
    (reread : ReadOutcome) (write : WriteOutcome)
    (h : get_technical_owner reread = some owner) :
    (update_technical_owner issue_key team_name reread write).2 = 0 ∧
    (update_technical_owner issue_key team_name reread write).1.success = false ∧
    (update_technical_owner issue_key team_name reread write).1.skip_reason =
      some "already_assigned" ∧
    (update_technical_owner issue_key team_name reread write).1.message =
      "Technical Owner already set to: " ++ owner := by
  simp [update_technical_owner, h]

theorem committer_never_overwrites_witness :
    (update_technical_owner "NFSAAS-1" "Team Nandi"
        (.ok (some "Team Fuji")) .noContent).2 = 0 ∧
    (update_technical_owner "NFSAAS-1" "Team Nandi"
        (.ok (some "Team Fuji")) .noContent).1.success = false ∧
    (update_technical_owner "NFSAAS-1" "Team Nandi"
        (.ok (some "Team Fuji")) .noContent).1.skip_reason =
      some "already_assigned" ∧
    (update_technical_owner "NFSAAS-1" "Team Nandi"
        (.ok (some "Team Fuji")) .noContent).1.message =
      "Technical Owner already set to: " ++ "Team Fuji" :=
  committer_never_overwrites "NFSAAS-1" "Team Nandi" "Team Fuji"
    (.ok (some "Team Fuji")) .noContent (by decide)

/-- C10: when the pre-write re-read fails (non-200 status or an
exception), `get_technical_owner` returns `None`, so
`update_technical_owner` treats the field as empty and issues the
write (one write call, no `already_assigned` skip): the never-overwrite
guard holds only when the re-read succeeds. -/
theorem committer_writes_on_failed_reread (issue_key team_name msg : String)
    (status : ℕ) (write : WriteOutcome) :
    get_technical_owner (.httpError status) = none ∧
    get_technical_owner (.exn msg) = none ∧
    (update_technical_owner issue_key team_name (.httpError status) write).2 = 1 ∧
    (update_technical_owner issue_key team_name (.exn msg) write).2 = 1 ∧
    (update_technical_owner issue_key team_name
        (.httpError status) write).1.skip_reason = none ∧
    (update_technical_owner issue_key team_name
        (.exn msg) write).1.skip_reason = none := by
  cases write <;> simp [update_technical_owner, get_technical_owner]

/-- C4: the polling scheduler is single-flight.  In every reachable
scheduler state at most one tick body is in flight; a tick that fires
while the flag is up leaves the state untouched (skipped, not queued);
and the `finally` of a completing or failing tick always clears the
lock. -/
theorem scheduler_single_flight (s s' : SchedState) (e : SchedEvent)
    (hreach : SchedReachable s) (hstep : SchedStep s e s') :
    s'.active ≤ 1 ∧
    (e = .tick → s.is_running = true → s' = s) ∧
    (e.isFinish = true → s'.is_running = false) := by
  refine ⟨(sched_invariant s' (.step s s' e hreach hstep)).1, ?_, ?_⟩
  · intro he hrun
    cases hstep with
    | tick_skipped _ => rfl
    | tick_started hfalse => rw [hrun] at hfalse; cases hfalse
    | tick_finished failed n hn => cases he
    | await_pause => rfl
  · intro hfin
    cases hstep with
    | tick_skipped _ => cases hfin
    | tick_started _ => cases hfin
    | tick_finished failed n hn => rfl
    | await_pause => cases hfin

theorem scheduler_single_flight_witness :
    (SchedState.mk true 1).active ≤ 1 ∧
    (SchedEvent.tick = .tick → initSched.is_running = true →
      SchedState.mk true 1 = initSched) ∧
    (SchedEvent.tick.isFinish = true → (SchedState.mk true 1).is_running = false) :=
  scheduler_single_flight initSched ⟨true, 1⟩ .tick .init
    (.tick_started initSched rfl)

/-- C9: on a non-skipped tick, every not-yet-processed fetched ticket
is attempted exactly once regardless of per-ticket outcomes (a failure
never aborts the batch), each ticket is inserted into the processed set
immediately after its attempt (after `n` iterations the set is the
initial set plus the first `n` tickets), and every attempt is tallied
as success, skipped or failed. -/
theorem scheduler_marks_every_attempt (outcome : String → String)
    (fetched : List String) (processed0 : Finset String) :
    (run_tick_core outcome fetched processed0).attempted =
      fetched.filter (fun k => decide (k ∉ processed0)) ∧
    (∀ n : ℕ,
      (process_batch outcome
          ((fetched.filter (fun k => decide (k ∉ processed0))).take n)
          ⟨processed0, 0, 0, 0, []⟩).processed =
        processed0 ∪
          ((fetched.filter (fun k => decide (k ∉ processed0))).take n).toFinset) ∧
    (run_tick_core outcome fetched processed0).success_count +
      (run_tick_core outcome fetched processed0).skipped_count +
      (run_tick_core outcome fetched processed0).failed_count =
      (fetched.filter (fun k => decide (k ∉ processed0))).length := by
  refine ⟨?_, ?_, ?_⟩
  · simp only [run_tick_core]
    rw [batch_attempted]
    simp
  · intro n
    rw [batch_processed]
  · simp only [run_tick_core]
    rw [batch_counts]
    simp

/-- C3: for every similarity list with fewer than `min_similar_tickets`
matches at similarity ≥ threshold, the scorer returns
`insufficient_data` (so never a recommendation), and the message cites
the valid-match count against the configured minimum. -/
theorem scorer_insufficient_data (ticket_key content : String)
    (components : List String) (sim_matches : List TicketMatch)
    (similarity_threshold : ℚ) (min_similar_tickets : ℕ)
    (enable_fine_tuning : Bool)
    (h : sim_matches.countP
          (fun m => decide (1 - m.distance ≥ similarity_threshold)) <
        min_similar_tickets) :
    assign_team_with_fine_tuning ticket_key none content components sim_matches
      similarity_threshold min_similar_tickets enable_fine_tuning =
    .insufficient_data ticket_key
      ("Only " ++
        toString (sim_matches.countP
          (fun m => decide (1 - m.distance ≥ similarity_threshold))) ++
        " similar tickets found (minimum: " ++
        toString min_similar_tickets ++ ")") := by
  have hv : (scanMatches similarity_threshold sim_matches).2 =
      sim_matches.countP
        (fun m => decide (1 - m.distance ≥ similarity_threshold)) := by
    rw [scanMatches, scanGo_valid]
    simp
  simp only [assign_team_with_fine_tuning]
  rw [hv, if_pos h]

theorem scorer_insufficient_data_witness :
    assign_team_with_fine_tuning "NFSAAS-1" none "" [] [] (6/10) 2 true =
    .insufficient_data "NFSAAS-1"
      ("Only " ++
        toString (([] : List TicketMatch).countP
          (fun m => decide (1 - m.distance ≥ (6/10 : ℚ)))) ++
        " similar tickets found (minimum: " ++ toString 2 ++ ")") :=
  scorer_insufficient_data "NFSAAS-1" "" [] [] (6/10) 2 true (by decide)

/-- C6: with fine-tuning disabled the reported keyword and component
boosts are zero for the recommended team and for every team in the
per-team breakdown, and every final score equals the base score sum
divided by the match count — i.e. disabling fine-tuning is forcing both
boosts to zero. -/
theorem scorer_disabled_tuning_zero_boosts (ticket_key content : String)
    (current_owner : Option String) (components : List String)
    (sim_matches : List TicketMatch) (similarity_threshold : ℚ)
    (min_similar_tickets : ℕ) :
    boostsZeroReported
      (assign_team_with_fine_tuning ticket_key current_owner content components
        sim_matches similarity_threshold min_similar_tickets false) ∧
    ∀ ts ∈ applyTuning false content components
        (scanMatches similarity_threshold sim_matches).1,
      ts.2.keyword_boost = 0 ∧ ts.2.component_boost = 0 ∧
      ts.2.final_score = ts.2.base_score / (ts.2.count : ℚ) := by
  refine ⟨?_, fun ts hts => applyTuning_false_mem content components _ ts hts⟩
  match hco : current_owner with
  | some owner =>
    simp [assign_team_with_fine_tuning, boostsZeroReported]
  | none =>
    simp only [assign_team_with_fine_tuning]
    by_cases hlt : (scanMatches similarity_threshold sim_matches).2 <
        min_similar_tickets
    · rw [if_pos hlt]
      simp [boostsZeroReported]
    · rw [if_neg hlt]
      match happ : applyTuning false content components
          (scanMatches similarity_threshold sim_matches).1 with
      | [] => simp [boostsZeroReported]
      | x :: xs =>
        have hbest := foldl_binary_mem
          (fun b y => if y.2.final_score > b.2.final_score then y else b)
          (fun b y => by by_cases hc : y.2.final_score > b.2.final_score <;>
            simp [hc]) xs x
        have hbest2 : xs.foldl
            (fun b y => if y.2.final_score > b.2.final_score then y else b) x ∈
            applyTuning false content components
              (scanMatches similarity_threshold sim_matches).1 := by
          rw [happ]; exact hbest
        obtain ⟨hkb, hcb, hfs⟩ := applyTuning_false_mem content components _ _ hbest2
        simp only [boostsZeroReported]
        refine ⟨hkb, hcb, by rw [hfs], ?_⟩
        intro e he
        rw [List.mem_map] at he
        obtain ⟨a, ha, rfl⟩ := he
        have ha2 : a ∈ applyTuning false content components
            (scanMatches similarity_threshold sim_matches).1 := by
          rw [happ]; exact ha
        obtain ⟨hkb2, hcb2, hfs2⟩ := applyTuning_false_mem content components _ _ ha2
        exact ⟨hkb2, hcb2, by simp [analysisEntry, hfs2]⟩

/-- C5: `keyword_boost` is monotonically non-decreasing in the set of
matching keywords (if every table keyword present in one content is
present in the other, the boost does not decrease), `component_boost`
is monotonically non-decreasing in the number of matching components,
and both are capped: the keyword boost never exceeds 0.3 and the
component boost never exceeds 0.2 — here at arbitrary `c2`/`comps2`,
hence for all inputs. -/
theorem boosts_monotone_capped (c1 c2 team : String)
    (comps1 comps2 : List String)
    (hkw : ∀ kv ∈ keyword_team_mapping,
      isSubstr kv.1 (pyLower c1) = true → isSubstr kv.1 (pyLower c2) = true)
    (hcomp : comps1.countP (componentMatches team) ≤
      comps2.countP (componentMatches team)) :
    calculate_keyword_boost c1 team ≤ calculate_keyword_boost c2 team ∧
    calculate_keyword_boost c2 team ≤ 3/10 ∧
    calculate_component_boost comps1 team ≤ calculate_component_boost comps2 team ∧
    calculate_component_boost comps2 team ≤ 2/10 := by
  refine ⟨?_, ?_, ?_, ?_⟩
  · rw [calculate_keyword_boost_eq, calculate_keyword_boost_eq]
    refine min_le_min ?_ le_rfl
    refine List.sum_le_sum ?_
    intro kv hkv
    rw [kwContrib, kwContrib]
    by_cases h1 : isSubstr kv.1 (pyLower c1)
    · rw [if_pos h1, if_pos (hkw kv hkv h1)]
    · rw [if_neg h1]
      by_cases h2 : isSubstr kv.1 (pyLower c2)
      · rw [if_pos h2]
        have := kwContrib_nonneg (pyLower c2) team kv hkv
        rw [kwContrib, if_pos h2] at this
        exact this
      · rw [if_neg h2]
  · rw [calculate_keyword_boost_eq]
    exact min_le_right _ _
  · rw [calculate_component_boost_eq, calculate_component_boost_eq]
    refine min_le_min ?_ le_rfl
    have hc : ((comps1.countP (componentMatches team) : ℚ)) ≤
        ((comps2.countP (componentMatches team) : ℚ)) := by
      exact_mod_cast hcomp
    nlinarith
  · rw [calculate_component_boost_eq]
    exact min_le_right _ _

theorem boosts_monotone_capped_witness :
    calculate_keyword_boost "smb" "Team Nandi" ≤
      calculate_keyword_boost "smb cifs" "Team Nandi" ∧
    calculate_keyword_boost "smb cifs" "Team Nandi" ≤ 3/10 ∧
    calculate_component_boost [] "Team Nandi" ≤
      calculate_component_boost ["SMB"] "Team Nandi" ∧
    calculate_component_boost ["SMB"] "Team Nandi" ≤ 2/10 :=
  boosts_monotone_capped "smb" "smb cifs" "Team Nandi" [] ["SMB"]
    (by decide) (by decide)

/-- C7 (corrected scenario): for 3 matches at similarities
[0.9, 0.8, 0.7] all owned by one team, threshold 0.6, minimum 2, the
scorer reports 3 valid matches and an average base score of
(0.9·1.0 + 0.8·0.98 + 0.7·0.96)/3 = 589/750 ≈ 0.785 (not ≈ 0.818),
which is the final score without boosts; with the single 1.5-weighted
keyword "smb" present in the content, keyword_boost = 0.15 and the
final score is 1403/1500 ≈ 0.935 (not ≈ 0.968). -/
theorem scorer_worked_scenario :
    assign_team_with_fine_tuning "NFSAAS-1" none "smb" []
      [⟨"T1", 1/10, some "Team Nandi"⟩, ⟨"T2", 1/5, some "Team Nandi"⟩,
       ⟨"T3", 3/10, some "Team Nandi"⟩] (6/10) 2 true =
      .recommendation "NFSAAS-1" "Team Nandi" (1403/1500) (589/750) (3/20) 0 3
        true [("Team Nandi", ⟨1403/1500, 589/750, 3/20, 0, 3, 9/10⟩)] [] ∧
    assign_team_with_fine_tuning "NFSAAS-1" none "smb" []
      [⟨"T1", 1/10, some "Team Nandi"⟩, ⟨"T2", 1/5, some "Team Nandi"⟩,
       ⟨"T3", 3/10, some "Team Nandi"⟩] (6/10) 2 false =
      .recommendation "NFSAAS-1" "Team Nandi" (589/750) (589/750) 0 0 3
        false [("Team Nandi", ⟨589/750, 589/750, 0, 0, 3, 9/10⟩)] [] := by
  constructor <;>
    norm_num +decide [assign_team_with_fine_tuning, scanMatches, scanGo,
      addMatch, applyTuning, calculate_keyword_boost, calculate_component_boost,
      keyword_team_mapping, component_weights, pyLower, isSubstr, analysisEntry,
      List.range_succ]

/-- C7 counterexample: on the worked scenario the average base score is
589/750 ≈ 0.785 and the boosted final score 1403/1500 ≈ 0.935; both
differ from the claimed ≈ 0.818 and ≈ 0.968 by more than 0.03, so the
claimed numeric values do not hold. -/
theorem scorer_worked_scenario_counterexample :
    assign_team_with_fine_tuning "NFSAAS-1" none "smb" []
      [⟨"T1", 1/10, some "Team Nandi"⟩, ⟨"T2", 1/5, some "Team Nandi"⟩,
       ⟨"T3", 3/10, some "Team Nandi"⟩] (6/10) 2 true =
      .recommendation "NFSAAS-1" "Team Nandi" (1403/1500) (589/750) (3/20) 0 3
        true [("Team Nandi", ⟨1403/1500, 589/750, 3/20, 0, 3, 9/10⟩)] [] ∧
    (818/1000 : ℚ) - 589/750 > 3/100 ∧
    (968/1000 : ℚ) - 1403/1500 > 3/100 := by
  refine ⟨?_, by norm_num, by norm_num⟩
  norm_num +decide [assign_team_with_fine_tuning, scanMatches, scanGo,
    addMatch, applyTuning, calculate_keyword_boost, calculate_component_boost,
    keyword_team_mapping, component_weights, pyLower, isSubstr, analysisEntry,
    List.range_succ]

/-- C8 (amended): a match without an owning team is bucketed under the
literal "Unknown" key and "Unknown" can win the recommendation; and
when zero teams are present among the matches the scorer returns
`no_teams_found` only if the valid-match count is not below
`min_similar_tickets` (i.e. the minimum is 0) — otherwise the
`insufficient_data` check fires first. -/
theorem scorer_no_teams_and_unknown (ticket_key content : String)
    (components : List String) (sim_matches : List TicketMatch) (thr : ℚ)
    (enable_fine_tuning : Bool)
    (h : sim_matches.countP (fun m => decide (1 - m.distance ≥ thr)) = 0) :
    assign_team_with_fine_tuning ticket_key none content components sim_matches
      thr 0 enable_fine_tuning =
      .no_teams_found ticket_key "No teams found in similar tickets" ∧
    assign_team_with_fine_tuning "NFSAAS-3" none "" []
      [⟨"a", 1/10, none⟩, ⟨"b", 3/20, none⟩] (6/10) 2 true =
      .recommendation "NFSAAS-3" "Unknown" (1733/2000) (1733/2000) 0 0 2 true
        [("Unknown", ⟨1733/2000, 1733/2000, 0, 0, 2, 9/10⟩)] [] := by
  constructor
  · have hv : (scanMatches thr sim_matches).2 = 0 := by
      rw [scanMatches, scanGo_valid]
      simpa using h
    have hs : (scanMatches thr sim_matches).1 = [] :=
      scanGo_scores_of_no_valid thr sim_matches 0 0 [] h
    simp only [assign_team_with_fine_tuning]
    rw [hv, hs, if_neg (lt_irrefl 0), applyTuning_nil]
  · norm_num +decide [assign_team_with_fine_tuning, scanMatches, scanGo,
      addMatch, applyTuning, calculate_keyword_boost, calculate_component_boost,
      keyword_team_mapping, component_weights, pyLower, isSubstr, analysisEntry,
      List.range_succ]

theorem scorer_no_teams_and_unknown_witness :
    assign_team_with_fine_tuning "NFSAAS-4" none "" [] [] (6/10) 0 true =
      .no_teams_found "NFSAAS-4" "No teams found in similar tickets" ∧
    assign_team_with_fine_tuning "NFSAAS-3" none "" []
      [⟨"a", 1/10, none⟩, ⟨"b", 3/20, none⟩] (6/10) 2 true =
      .recommendation "NFSAAS-3" "Unknown" (1733/2000) (1733/2000) 0 0 2 true
        [("Unknown", ⟨1733/2000, 1733/2000, 0, 0, 2, 9/10⟩)] [] :=
  scorer_no_teams_and_unknown "NFSAAS-4" "" [] [] (6/10) true (by decide)

/-- C8 counterexample: with the default parameters (threshold 0.6,
minimum 2), a match list with zero teams present (here: empty) makes
the scorer return `insufficient_data`, not `no_teams_found` — the
insufficient-data check fires before the no-teams check. -/
theorem scorer_no_teams_counterexample :
    assign_team_with_fine_tuning "NFSAAS-2" none "" [] [] (6/10) 2 true =
      .insufficient_data "NFSAAS-2" "Only 0 similar tickets found (minimum: 2)" ∧
    assign_team_with_fine_tuning "NFSAAS-2" none "" [] [] (6/10) 2 true ≠
      .no_teams_found "NFSAAS-2" "No teams found in similar tickets" := by
  have h1 : assign_team_with_fine_tuning "NFSAAS-2" none "" [] [] (6/10) 2 true =
      .insufficient_data "NFSAAS-2" "Only 0 similar tickets found (minimum: 2)" := by
    norm_num +decide [assign_team_with_fine_tuning, scanMatches, scanGo]
  exact ⟨h1, by rw [h1]; exact fun hc => AssignResult.noConfusion hc⟩

/-- C2 (amended): for every non-empty similar-ticket list the
arbitrator returns a (team, confidence, reasoning) triple, and whenever
the model call fails or parsing yields no team, the returned team is
one appearing most often in the list with confidence equal to
votes_for_winner / total_matches.  (On an empty list both fallback
paths re-raise out of the arbitrator.) -/
theorem arbitrator_majority_fallback (parseFloat : String → Option ℚ)
    (llm_response : Option String) (similar_tickets : List SimTicket)
    (h : similar_tickets ≠ []) :
    ∃ t c r, predict_team_with_llm parseFloat llm_response similar_tickets =
        some (t, c, r) ∧
      (fallbackTriggered parseFloat llm_response = true →
        c = (similar_tickets.countP (fun s => s.team == t) : ℚ) /
            (similar_tickets.length : ℚ) ∧
        ∀ t', similar_tickets.countP (fun s => s.team == t') ≤
          similar_tickets.countP (fun s => s.team == t)) := by
  match llm_response with
  | none =>
    obtain ⟨t, c, r, heq, hc, hmax⟩ := llmFailedFallback_spec similar_tickets h
    exact ⟨t, c, r, heq, fun _ => ⟨hc, hmax⟩⟩
  | some resp =>
    simp only [predict_team_with_llm, fallbackTriggered]
    match hp : parseLoop parseFloat (pySplitLines (pyStrip resp)) none (1/2) "" with
    | .error e =>
      dsimp only
      obtain ⟨t, c, r, heq, hc, hmax⟩ := llmFailedFallback_spec similar_tickets h
      exact ⟨t, c, r, heq, fun _ => ⟨hc, hmax⟩⟩
    | .ok (team, confidence, reasoning) =>
      match team with
      | none =>
        dsimp only
        obtain ⟨t, c, r, heq, hc, hmax⟩ := voteCountFallback_spec similar_tickets h
        exact ⟨t, c, r, heq, fun _ => ⟨hc, hmax⟩⟩
      | some t =>
        dsimp only
        by_cases ht : t = ""
        · rw [if_pos ht]
          obtain ⟨t2, c, r, heq, hc, hmax⟩ := voteCountFallback_spec similar_tickets h
          exact ⟨t2, c, r, heq, fun _ => ⟨hc, hmax⟩⟩
        · rw [if_neg ht]
          refine ⟨t, confidence, reasoning, rfl, ?_⟩
          intro hfb
          exact absurd hfb (by simp [ht])

theorem arbitrator_majority_fallback_witness :
    ∃ t c r, predict_team_with_llm (fun _ => none) none
        [⟨"NFSAAS-10", "team-nandi", "s1", 1/10⟩,
         ⟨"NFSAAS-11", "team-nandi", "s2", 1/5⟩,
         ⟨"NFSAAS-12", "team-fuji", "s3", 3/10⟩] = some (t, c, r) ∧
      (fallbackTriggered (fun _ => none) none = true →
        c = (([⟨"NFSAAS-10", "team-nandi", "s1", 1/10⟩,
              ⟨"NFSAAS-11", "team-nandi", "s2", 1/5⟩,
              ⟨"NFSAAS-12", "team-fuji", "s3", 3/10⟩] :
                List SimTicket).countP (fun s => s.team == t) : ℚ) /
            (([⟨"NFSAAS-10", "team-nandi", "s1", 1/10⟩,
              ⟨"NFSAAS-11", "team-nandi", "s2", 1/5⟩,
              ⟨"NFSAAS-12", "team-fuji", "s3", 3/10⟩] :
                List SimTicket).length : ℚ) ∧
        ∀ t', ([⟨"NFSAAS-10", "team-nandi", "s1", 1/10⟩,
              ⟨"NFSAAS-11", "team-nandi", "s2", 1/5⟩,
              ⟨"NFSAAS-12", "team-fuji", "s3", 3/10⟩] :
                List SimTicket).countP (fun s => s.team == t') ≤
          ([⟨"NFSAAS-10", "team-nandi", "s1", 1/10⟩,
            ⟨"NFSAAS-11", "team-nandi", "s2", 1/5⟩,
            ⟨"NFSAAS-12", "team-fuji", "s3", 3/10⟩] :
              List SimTicket).countP (fun s => s.team == t)) :=
  arbitrator_majority_fallback (fun _ => none) none
    [⟨"NFSAAS-10", "team-nandi", "s1", 1/10⟩,
     ⟨"NFSAAS-11", "team-nandi", "s2", 1/5⟩,
     ⟨"NFSAAS-12", "team-fuji", "s3", 3/10⟩] (List.cons_ne_nil _ _)

/-- C2 counterexample: with an empty similar-ticket list and a failed
model call, both vote-counting fallbacks call Python `max` on an empty
dict, whose `ValueError` escapes the arbitrator — it does not return a
(team, confidence, reasoning) triple. -/
theorem arbitrator_empty_list_counterexample :
    predict_team_with_llm (fun _ => none) none [] = none := rfl

end JiraAutoAssign
